import Mathlib

/-!
Shallow embedding of the session-multiplexed subprocess manager of
localQQTransferProxy (`src/bridge/claude_adapter.py`) together with the
inbound-event guard of `src/bridge/main.py`.

Time is modelled in ticks of 0.05 s, so the source constants become:
outer poll cap 0.25 s = 5 ticks, poll floor 0.05 s = 1 tick, quiet window
0.6 s = 12 ticks, inner poll 0.1 s = 2 ticks, one second = 20 ticks, and a
grace period of 3 s is kept as 3 abstract units in the termination model.
-/

/-- Whitespace characters stripped by Python `str.strip()` (the ASCII ones,
which cover all strings this program produces). -/
def isPySpace (c : Char) : Bool :=
  c = ' ' || c = '\t' || c = '\n' || c = '\r' || c = '\x0b' || c = '\x0c'

/-- Python `s.strip()`: drop leading and trailing whitespace. -/
def pyStrip (s : String) : String :=
  String.mk (((s.toList.dropWhile isPySpace).reverse.dropWhile isPySpace).reverse)

/-- Post-processing of the read result on claude_adapter.py line 57:
`output.strip() or "(no response)"` — the stripped text, or the placeholder
when the stripped text is empty (Python `or` picks the right operand exactly
when the left one is the empty string). -/
def askPostprocess (out : String) : String :=
  if pyStrip out = "" then "(no response)" else pyStrip out

/-- Environment oracle for one `ask` call: for the i-th iteration of the
`while True` loop in claude_adapter.py lines 41-57, whether the in-lock
`session.process.poll()` reports the process dead, whether the
`session.process.stdin.write` succeeds (it raises when the pipe closed
between the liveness check and the write), and the raw text that
`_read_response` returns when the write succeeds. -/
structure AskOracle where
  pollDead : Nat → Bool
  writeOk : Nat → Bool
  readResult : Nat → String

/-- Outcome of an `ask` call: the returned text, or the exception that a
write against a closed stdin raises — `ask` installs no handler, so it
propagates to the caller. -/
inductive AskOutcome where
  | ok (text : String)
  | ioError
  deriving DecidableEq, Repr

/-- The `while True` loop of `ask` (claude_adapter.py lines 41-57), with
fuel. Each iteration resolves a session and, under the session lock, polls
liveness: a dead poll logs, calls `_replace_session` and continues the loop;
a live poll writes the prompt — an unhandled exception surfaces at once if
the stream closed — then reads, strips, and applies the empty-string
placeholder. The result carries the number of `_replace_session` calls the
loop performed; `none` means the given number of iterations did not finish. -/
def askLoop (o : AskOracle) : Nat → Nat → Option (AskOutcome × Nat)
  | 0, _ => none
  | fuel + 1, i =>
    if o.pollDead i then
      match askLoop o fuel (i + 1) with
      | none => none
      | some (r, n) => some (r, n + 1)
    else if o.writeOk i then
      some (AskOutcome.ok (askPostprocess (o.readResult i)), 0)
    else
      some (AskOutcome.ioError, 0)

/-- Oracle of a run whose in-lock liveness check passes but whose write hits
a stream that closed between the check and the write. -/
def writeFailOracle : AskOracle :=
  ⟨fun _ => false, fun _ => false, fun _ => ""⟩

/-- Oracle of a run in which every in-lock liveness check finds the process
dead (each freshly spawned replacement dies before the check). -/
def alwaysDeadOracle : AskOracle :=
  ⟨fun _ => true, fun _ => true, fun _ => ""⟩

/-- Oracle of a run whose process is live and whose stream yields no bytes,
so the read result is empty. -/
def emptyReadOracle : AskOracle :=
  ⟨fun _ => false, fun _ => true, fun _ => ""⟩

/-- The fields of a parsed QQ message event that `handle_incoming_event`
consults (main.py lines 30-59). -/
structure QQMessageEvent where
  event_id : String
  sender_id : String
  text : String
  is_self_message : Bool
  deriving DecidableEq, Repr

/-- What `handle_incoming_event` does with an event: return an `ignored`
response for a self message, return an `ignored` response for an empty
sender or whitespace-only text, or call `claude_adapter.ask` with the
sender id as session key and the event text as prompt. -/
inductive HandleOutcome where
  | ignoredSelf (event_id : String)
  | ignoredEmpty (event_id : String)
  | asked (key prompt : String)
  deriving DecidableEq, Repr

/-- `handle_incoming_event` (main.py lines 30-59) up to the point where the
Claude adapter is or is not invoked: the self-message guard runs first, then
`if not event.sender_id or not event.text.strip()` returns the ignored
response, and only past both guards is `ask(event.sender_id, event.text)`
reached. -/
def handle_incoming_event (e : QQMessageEvent) : HandleOutcome :=
  if e.is_self_message then HandleOutcome.ignoredSelf e.event_id
  else if e.sender_id = "" ∨ pyStrip e.text = "" then
    HandleOutcome.ignoredEmpty e.event_id
  else HandleOutcome.asked e.sender_id e.text

/-- The `status` field of the response each outcome produces. -/
def handleStatus : HandleOutcome → String
  | HandleOutcome.ignoredSelf _ => "ignored"
  | HandleOutcome.ignoredEmpty _ => "ignored"
  | HandleOutcome.asked _ _ => "ok"

/-- Whether the outcome involved a call into the Claude adapter. -/
def askCalled : HandleOutcome → Bool
  | HandleOutcome.asked _ _ => true
  | _ => false

/-- Atomic actions of a registry operation, in program order: acquiring or
releasing `self._sessions_lock`, spawning the replacement process, writing
the new entry into `self._sessions`, popping an entry, and terminating the
old process via `_terminate_process`. -/
inductive RegAction where
  | acquire
  | release
  | spawn
  | insert
  | popKey
  | terminateOld
  deriving DecidableEq, Repr

/-- State of the registry for the requested key when an operation starts. -/
inductive KeyState where
  | absent
  | dead
  | live
  deriving DecidableEq, Repr

/-- Action trace of `_get_or_create_session` (claude_adapter.py lines
67-76). The whole body sits inside `with self._sessions_lock`, which
acquires on entry and releases on every exit, including `return`: a live
entry is returned at once; a dead entry has its process terminated, then a
fresh process is spawned and installed; an absent key spawns and installs. -/
def getOrCreateTrace : KeyState → List RegAction
  | KeyState.live => [RegAction.acquire, RegAction.release]
  | KeyState.dead =>
      [RegAction.acquire, RegAction.terminateOld, RegAction.spawn,
       RegAction.insert, RegAction.release]
  | KeyState.absent =>
      [RegAction.acquire, RegAction.spawn, RegAction.insert, RegAction.release]

/-- Action trace of `_replace_session` (lines 78-85): inside
`with self._sessions_lock`, any existing entry's process is terminated, then
a fresh session is spawned and installed. -/
def replaceTrace (present : Bool) : List RegAction :=
  if present then
    [RegAction.acquire, RegAction.terminateOld, RegAction.spawn,
     RegAction.insert, RegAction.release]
  else
    [RegAction.acquire, RegAction.spawn, RegAction.insert, RegAction.release]

/-- Action trace of `_terminate_session` (lines 139-143): the pop happens
inside `with self._sessions_lock`; the terminate of a popped session happens
after the block, with the lock released. -/
def terminateSessionTrace (present : Bool) : List RegAction :=
  [RegAction.acquire, RegAction.popKey, RegAction.release] ++
    (if present then [RegAction.terminateOld] else [])

/-- Whether a trace performs a `terminateOld` while the registry lock is
held, scanning left to right with the current lock state. -/
def terminatesWhileLocked : List RegAction → Bool → Bool
  | [], _ => false
  | RegAction.acquire :: rest, _ => terminatesWhileLocked rest true
  | RegAction.release :: rest, _ => terminatesWhileLocked rest false
  | RegAction.terminateOld :: rest, held =>
      held || terminatesWhileLocked rest held
  | _ :: rest, held => terminatesWhileLocked rest held

/-- In-memory image of one `ClaudeSession` dataclass (claude_adapter.py
lines 14-19): the stored key and the identity and liveness of its process. -/
structure SessionM where
  session_key : String
  procId : Nat
  procAlive : Bool
  deriving DecidableEq, Repr

/-- `ClaudeSession(session_key=session_key, process=self._spawn_process())`
as built on lines 74 and 83: the stored key is the requested key and the
process is freshly spawned, hence live. -/
def mkSession (k : String) (pid : Nat) : SessionM :=
  ⟨k, pid, true⟩

/-- Lookup in the `self._sessions` dict, whose keys are unique. -/
def regLookup (m : List (String × SessionM)) (k : String) : Option SessionM :=
  (m.find? (fun p => p.1 == k)).map Prod.snd

/-- Dict assignment `self._sessions[key] = session`: the entry for the key
is replaced, all other entries are untouched. -/
def regInsert (m : List (String × SessionM)) (k : String) (s : SessionM) :
    List (String × SessionM) :=
  (k, s) :: m.filter (fun p => p.1 != k)

/-- Dict pop `self._sessions.pop(key, None)` as used on line 141. -/
def regRemove (m : List (String × SessionM)) (k : String) :
    List (String × SessionM) :=
  m.filter (fun p => p.1 != k)

/-- Map effect of `_get_or_create_session` (lines 67-76): a live existing
entry leaves the map unchanged; otherwise a fresh session built with the
requested key is installed under that key. -/
def getOrCreateMap (m : List (String × SessionM)) (k : String) (pid : Nat) :
    List (String × SessionM) :=
  match regLookup m k with
  | some s => if s.procAlive then m else regInsert m k (mkSession k pid)
  | none => regInsert m k (mkSession k pid)

/-- Map effect of `_replace_session` (lines 78-85): unconditionally install
a fresh session built with the requested key. -/
def replaceMap (m : List (String × SessionM)) (k : String) (pid : Nat) :
    List (String × SessionM) :=
  regInsert m k (mkSession k pid)

/-- The registry key-consistency invariant: every entry stores a session
whose `session_key` equals the key it is filed under. -/
def KeyConsistent (m : List (String × SessionM)) : Prop :=
  ∀ p ∈ m, p.2.session_key = p.1

/-- The keys one tick of `_cleanup_worker` (claude_adapter.py lines
128-137) collects under the registry lock: those whose idle time
`now - last_used` strictly exceeds `idle_timeout_seconds`. Sessions are
`(key, last_used)` pairs with unique keys. -/
def staleKeys (sessions : List (String × Nat)) (now idleTimeout : Nat) :
    List String :=
  (sessions.filter (fun s => decide (idleTimeout < now - s.2))).map Prod.fst

/-- The evicted keys and the remaining map after the tick: the collected
stale keys are popped (each via `_terminate_session`), everything else is
kept. -/
def cleanupTick (sessions : List (String × Nat)) (now idleTimeout : Nat) :
    List String × List (String × Nat) :=
  (staleKeys sessions now idleTimeout,
   sessions.filter (fun s => decide (s.1 ∉ staleKeys sessions now idleTimeout)))

/-- Behaviour of the child process as seen by `_terminate_process`
(claude_adapter.py lines 146-152): whether `poll()` reports it already
exited, and how long after the termination signal it would take to exit on
its own, `none` meaning never. -/
structure ProcBehaviour where
  alreadyExited : Bool
  exitAfterTerm : Option Nat
  deriving DecidableEq, Repr

/-- Signals `_terminate_process` sends. -/
inductive TermSignal where
  | sigterm
  | sigkill
  deriving DecidableEq, Repr

/-- The signals `_terminate_process` sends, in order: nothing when the
process already exited; otherwise `process.terminate()`, and additionally
`process.kill()` when `process.wait(timeout=3)` raises `TimeoutExpired`
because the process did not exit within the 3-unit grace period. -/
def terminateSignals (p : ProcBehaviour) : List TermSignal :=
  if p.alreadyExited then []
  else
    match p.exitAfterTerm with
    | some d => if d ≤ 3 then [TermSignal.sigterm]
                else [TermSignal.sigterm, TermSignal.sigkill]
    | none => [TermSignal.sigterm, TermSignal.sigkill]

/-- Time `_terminate_process` blocks, in grace-period units: zero for an
already-exited process, the child's own exit delay when it beats the grace
period, and the full grace period otherwise (the subsequent `kill()` does
not block). -/
def terminateDuration (p : ProcBehaviour) : Nat :=
  if p.alreadyExited then 0
  else
    match p.exitAfterTerm with
    | some d => min d 3
    | none => 3

/-- Whether the process is gone once `_terminate_process` returns: it had
already exited, or it exited within the grace period, or it was killed. -/
def processGone (p : ProcBehaviour) : Bool :=
  p.alreadyExited ||
    (match p.exitAfterTerm with
     | some d => decide (d ≤ 3)
     | none => false) ||
    (terminateSignals p).contains TermSignal.sigkill

/-- Earliest tick at which `select` would report the child's output
descriptor readable: the earliest still-unconsumed arrival, or the tick at
which end-of-file becomes visible. -/
def earliestReady (evs : List (Nat × String)) (closeAt : Option Nat) :
    Option Nat :=
  evs.foldr
    (fun e acc =>
      match acc with
      | none => some e.1
      | some b => some (min e.1 b))
    closeAt

/-- Model of `select.select([fd], [], [], d)` entered at tick `t`: the
stream is a list of `(arrival tick, chunk)` pairs still unconsumed plus an
optional end-of-file tick. Returns whether the descriptor became readable
and the tick at which the call returns — the readiness tick (select wakes as
soon as data or EOF is available) or `t + d` on timeout. -/
def selectAt (evs : List (Nat × String)) (closeAt : Option Nat)
    (t d : Nat) : Bool × Nat :=
  match earliestReady evs closeAt with
  | some a => if a ≤ t + d then (true, max t a) else (false, t + d)
  | none => (false, t + d)

/-- Model of `os.read(fd, 4096)` at tick `t`: consume every chunk that has
arrived by `t` and return their concatenation together with the unconsumed
rest (chunks are far smaller than the 4096-byte read size). The empty
string is what a read at end-of-file returns. -/
def readAt (evs : List (Nat × String)) (t : Nat) :
    String × List (Nat × String) :=
  (String.join ((evs.filter (fun e => decide (e.1 ≤ t))).map Prod.snd),
   evs.filter (fun e => decide (t < e.1)))

/-- The polling loop of `_read_response` (claude_adapter.py lines 105-124)
in 0.05 s ticks. `mode = none` is the outer loop: at the overall deadline
return the collected chunks; otherwise `select` for
`min(0.25, max(0.05, deadline - now))` = `min 5 (max 1 (deadline - t))`
ticks; no data with something collected ends the read, no data with nothing
collected keeps polling; data is read and appended and the quiet-window
sub-loop is entered with quiet deadline `read tick + 12` (0.6 s), while a
zero-length read (EOF) ends the read. `mode = some qdl` is the sub-loop of
lines 117-124 with its fixed quiet deadline `qdl`, computed once on line 116
when the sub-loop is entered: until `qdl`, `select` for 2 ticks (0.1 s);
new data is appended and the sub-loop continues with the same `qdl`; a
zero-length read breaks back to the outer loop, as does reaching `qdl`.
`fuel` bounds the iteration count; `none` means it was exhausted. -/
def readLoop (closeAt : Option Nat) :
    Nat → List (Nat × String) → Option Nat → Nat → Nat → List String →
      Option (List String)
  | 0, _, _, _, _, _ => none
  | fuel + 1, evs, none, t, deadline, chunks =>
    if deadline ≤ t then some chunks
    else
      if (selectAt evs closeAt t (min 5 (max 1 (deadline - t)))).1 then
        if (readAt evs (selectAt evs closeAt t (min 5 (max 1 (deadline - t)))).2).1 = "" then
          some chunks
        else
          readLoop closeAt fuel
            (readAt evs (selectAt evs closeAt t (min 5 (max 1 (deadline - t)))).2).2
            (some ((selectAt evs closeAt t (min 5 (max 1 (deadline - t)))).2 + 12))
            (selectAt evs closeAt t (min 5 (max 1 (deadline - t)))).2
            deadline
            (chunks ++ [(readAt evs (selectAt evs closeAt t (min 5 (max 1 (deadline - t)))).2).1])
      else
        if chunks.isEmpty then
          readLoop closeAt fuel evs none
            (selectAt evs closeAt t (min 5 (max 1 (deadline - t)))).2 deadline chunks
        else some chunks
  | fuel + 1, evs, some qdl, t, deadline, chunks =>
    if qdl ≤ t then readLoop closeAt fuel evs none t deadline chunks
    else
      if (selectAt evs closeAt t 2).1 then
        if (readAt evs (selectAt evs closeAt t 2).2).1 = "" then
          readLoop closeAt fuel evs none (selectAt evs closeAt t 2).2 deadline chunks
        else
          readLoop closeAt fuel (readAt evs (selectAt evs closeAt t 2).2).2
            (some qdl) (selectAt evs closeAt t 2).2 deadline
            (chunks ++ [(readAt evs (selectAt evs closeAt t 2).2).1])
      else
        readLoop closeAt fuel evs (some qdl) (selectAt evs closeAt t 2).2 deadline chunks

/-- `_read_response` (lines 98-125): run the outer loop from tick `t0` with
overall deadline `t0 + timeoutTicks` and no collected chunks, then join the
collected chunks (line 125). -/
def readResponse (evs : List (Nat × String)) (closeAt : Option Nat)
    (timeoutTicks t0 fuel : Nat) : Option String :=
  (readLoop closeAt fuel evs none t0 (t0 + timeoutTicks) []).map String.join

/-- Modelled from the spec's words in §4.2, for comparison with `readLoop`
(which is translated from the source): identical except in the quiet-window
sub-loop, where per the spec "any new data resets the accumulation and
restarts the quiet window" — the quiet deadline is reset to 12 ticks after
each arrival instead of staying fixed at its sub-loop-entry value. -/
def readLoopSpecRestart (closeAt : Option Nat) :
    Nat → List (Nat × String) → Option Nat → Nat → Nat → List String →
      Option (List String)
  | 0, _, _, _, _, _ => none
  | fuel + 1, evs, none, t, deadline, chunks =>
    if deadline ≤ t then some chunks
    else
      if (selectAt evs closeAt t (min 5 (max 1 (deadline - t)))).1 then
        if (readAt evs (selectAt evs closeAt t (min 5 (max 1 (deadline - t)))).2).1 = "" then
          some chunks
        else
          readLoopSpecRestart closeAt fuel
            (readAt evs (selectAt evs closeAt t (min 5 (max 1 (deadline - t)))).2).2
            (some ((selectAt evs closeAt t (min 5 (max 1 (deadline - t)))).2 + 12))
            (selectAt evs closeAt t (min 5 (max 1 (deadline - t)))).2
            deadline
            (chunks ++ [(readAt evs (selectAt evs closeAt t (min 5 (max 1 (deadline - t)))).2).1])
      else
        if chunks.isEmpty then
          readLoopSpecRestart closeAt fuel evs none
            (selectAt evs closeAt t (min 5 (max 1 (deadline - t)))).2 deadline chunks
        else some chunks
  | fuel + 1, evs, some qdl, t, deadline, chunks =>
    if qdl ≤ t then readLoopSpecRestart closeAt fuel evs none t deadline chunks
    else
      if (selectAt evs closeAt t 2).1 then
        if (readAt evs (selectAt evs closeAt t 2).2).1 = "" then
          readLoopSpecRestart closeAt fuel evs none (selectAt evs closeAt t 2).2
            deadline chunks
        else
          readLoopSpecRestart closeAt fuel (readAt evs (selectAt evs closeAt t 2).2).2
            (some ((selectAt evs closeAt t 2).2 + 12)) (selectAt evs closeAt t 2).2
            deadline (chunks ++ [(readAt evs (selectAt evs closeAt t 2).2).1])
      else
        readLoopSpecRestart closeAt fuel evs (some qdl) (selectAt evs closeAt t 2).2
          deadline chunks

/-- Stream of C2's counterexample: chunks at ticks 0, 10 and 21, so the
third chunk arrives 11 ticks (0.55 s, inside a 0.6 s quiet window) after the
second but after the sub-loop's fixed quiet deadline of tick 12. -/
def restartGapStream : List (Nat × String) :=
  [(0, "A"), (10, "B"), (21, "C")]

/-- Stream of C4: "AB" at tick 0, then 0.3 s (6 ticks) of silence, then
"CD" at tick 6, then silence forever. -/
def collationStream : List (Nat × String) :=
  [(0, "AB"), (6, "CD")]

/-- Totality of the reader loop over a given stream, in both modes: some
amount of fuel makes it return. In the sub-loop mode the accumulated buffer
is non-empty, as it always is when `_read_response` enters the sub-loop. -/
def ReaderTotal (evs : List (Nat × String)) (closeAt : Option Nat) : Prop :=
  (∀ t deadline chunks, ∃ fuel out,
      readLoop closeAt fuel evs none t deadline chunks = some out) ∧
    (∀ t qdl deadline c cs, ∃ fuel out,
      readLoop closeAt fuel evs (some qdl) t deadline (c :: cs) = some out)

/-- C10: the bridge service never invokes `ask` with an empty session key or
whitespace-only prompt: an event with empty parsed sender id or
whitespace-only text gets an `ignored` response without any call into the
Claude adapter, and any event that does reach `ask` passes a non-empty key
and a prompt whose strip is non-empty. -/
theorem handle_guards_ask (e : QQMessageEvent) :
    ((e.sender_id = "" ∨ pyStrip e.text = "") →
        handleStatus (handle_incoming_event e) = "ignored" ∧
          askCalled (handle_incoming_event e) = false) ∧
      (∀ k p, handle_incoming_event e = HandleOutcome.asked k p →
        k ≠ "" ∧ pyStrip p ≠ "") := by
  refine ⟨fun h => ?_, fun k p hk => ?_⟩
  · unfold handle_incoming_event
    by_cases hs : e.is_self_message = true
    · rw [if_pos hs]; exact ⟨rfl, rfl⟩
    · rw [if_neg hs, if_pos h]; exact ⟨rfl, rfl⟩
  · unfold handle_incoming_event at hk
    by_cases hs : e.is_self_message = true
    · rw [if_pos hs] at hk; exact absurd hk (by simp)
    · rw [if_neg hs] at hk
      by_cases h : e.sender_id = "" ∨ pyStrip e.text = ""
      · rw [if_pos h] at hk; exact absurd hk (by simp)
      · rw [if_neg h] at hk
        push_neg at h
        injection hk with h1 h2
        subst h1; subst h2
        exact h

/-- Witness for C10 at an event with whitespace-only text. -/
theorem handle_guards_ask_witness :
    handleStatus (handle_incoming_event ⟨"evt-1", "u1", "   ", false⟩) = "ignored" ∧
      askCalled (handle_incoming_event ⟨"evt-1", "u1", "   ", false⟩) = false :=
  (handle_guards_ask ⟨"evt-1", "u1", "   ", false⟩).1 (Or.inr (by decide))

/-- C6: a completed `ask` call returns the read output stripped of leading
and trailing whitespace, with the literal placeholder `"(no response)"`
substituted whenever the stripped text is empty, so the returned string is
never empty. -/
theorem ask_strip_placeholder (o : AskOracle) (i fuel : Nat)
    (halive : o.pollDead i = false) (hw : o.writeOk i = true) :
    askLoop o (fuel + 1) i =
        some (AskOutcome.ok (askPostprocess (o.readResult i)), 0) ∧
      (pyStrip (o.readResult i) = "" →
        askPostprocess (o.readResult i) = "(no response)") ∧
      (pyStrip (o.readResult i) ≠ "" →
        askPostprocess (o.readResult i) = pyStrip (o.readResult i)) ∧
      askPostprocess (o.readResult i) ≠ "" := by
  refine ⟨by simp [askLoop, halive, hw], fun h => ?_, fun h => ?_, ?_⟩
  · simp [askPostprocess, h]
  · simp [askPostprocess, h]
  · unfold askPostprocess
    by_cases h : pyStrip (o.readResult i) = ""
    · rw [if_pos h]; decide
    · rw [if_neg h]; exact h

/-- Witness for C6: a live process whose stream yields zero bytes makes
`ask` return the placeholder, not the empty string. -/
theorem ask_strip_placeholder_witness :
    askLoop emptyReadOracle 1 0 = some (AskOutcome.ok "(no response)", 0) ∧
      askPostprocess (emptyReadOracle.readResult 0) = "(no response)" := by
  have h := ask_strip_placeholder emptyReadOracle 0 0 rfl rfl
  refine ⟨?_, h.2.1 (by decide)⟩
  rw [h.1, h.2.1 (by decide)]

/-- C1 counterexample: in a run whose in-lock liveness check passes but
whose write hits a stream that closed in between, `ask` surfaces the error
at once with zero `_replace_session` calls — not the claimed exactly-one
session-replacement-and-retry cycle (which would make the count 1). -/
theorem ask_write_failure_cex :
    askLoop writeFailOracle 5 0 = some (AskOutcome.ioError, 0) ∧
      askLoop writeFailOracle 5 0 ≠ some (AskOutcome.ioError, 1) :=
  ⟨by decide, by decide⟩

/-- C1 amended: a write failure on a stream that closed between the in-lock
liveness check and the write is not caught — the exception propagates to
the caller immediately, with zero replacement-and-retry cycles — and the
`while True` retry loop of `ask` is not bounded: it performs one
`_replace_session` per iteration whose liveness check reports the process
dead and never finishes if every check does. -/
theorem ask_write_failure_behaviour :
    (∀ (o : AskOracle) (i fuel : Nat), o.pollDead i = false →
        o.writeOk i = false →
        askLoop o (fuel + 1) i = some (AskOutcome.ioError, 0)) ∧
      (∀ fuel i, askLoop alwaysDeadOracle fuel i = none) := by
  constructor
  · intro o i fuel h1 h2
    simp [askLoop, h1, h2]
  · intro fuel
    induction fuel with
    | zero => intro i; rfl
    | succ n ih =>
      intro i
      have hpd : alwaysDeadOracle.pollDead i = true := rfl
      simp [askLoop, hpd, ih]

/-- Witness for the amended C1: a concrete failing write surfaces with zero
replacements, and seven iterations of all-dead liveness checks do not
finish. -/
theorem ask_write_failure_behaviour_witness :
    askLoop writeFailOracle 3 0 = some (AskOutcome.ioError, 0) ∧
      askLoop alwaysDeadOracle 7 0 = none :=
  ⟨ask_write_failure_behaviour.1 writeFailOracle 0 2 rfl rfl,
   ask_write_failure_behaviour.2 7 0⟩

/-- C3 counterexample: `_get_or_create_session` on a dead entry and
`_replace_session` on a present entry both run `_terminate_process` while
still holding the registry lock, refuting the claim that all three registry
operations terminate the old process only after releasing it. -/
theorem registry_lock_cex :
    terminatesWhileLocked (getOrCreateTrace KeyState.dead) false = true ∧
      terminatesWhileLocked (replaceTrace true) false = true :=
  ⟨by decide, by decide⟩

/-- C3 amended: only `_terminate_session` (remove) confines the registry
lock to the map mutation and terminates the popped session's process after
release; `_get_or_create_session` (when the stored process is dead) and
`_replace_session` (when an entry exists) terminate the old process while
still holding the registry lock. -/
theorem registry_lock_discipline :
    (∀ present, terminatesWhileLocked (terminateSessionTrace present) false = false) ∧
      terminatesWhileLocked (getOrCreateTrace KeyState.dead) false = true ∧
      terminatesWhileLocked (replaceTrace true) false = true ∧
      terminatesWhileLocked (getOrCreateTrace KeyState.live) false = false ∧
      terminatesWhileLocked (getOrCreateTrace KeyState.absent) false = false := by
  refine ⟨fun present => ?_, by decide, by decide, by decide, by decide⟩
  cases present <;> decide

/-- C8: `_terminate_process` blocks at most the 3-unit grace period and
leaves the process gone; an already-exited process is not signalled at all;
a live process gets the graceful signal, and is force-killed exactly when
it has not exited by the end of the grace period. -/
theorem terminate_grace_bound (p : ProcBehaviour) :
    terminateDuration p ≤ 3 ∧ processGone p = true ∧
      (p.alreadyExited = true → terminateSignals p = []) ∧
      (p.alreadyExited = false → TermSignal.sigterm ∈ terminateSignals p) ∧
      (p.alreadyExited = false → ∀ d, p.exitAfterTerm = some d → 3 < d →
        TermSignal.sigkill ∈ terminateSignals p) ∧
      (p.alreadyExited = false → p.exitAfterTerm = none →
        TermSignal.sigkill ∈ terminateSignals p) := by
  obtain ⟨ae, ex⟩ := p
  cases ae
  · cases ex with
    | none =>
      refine ⟨by simp [terminateDuration], by simp [processGone, terminateSignals],
        by simp, by simp [terminateSignals], ?_, by simp [terminateSignals]⟩
      intro _ d hd
      exact absurd hd (by simp)
    | some d =>
      by_cases hd : d ≤ 3
      · refine ⟨by simp [terminateDuration], by simp [processGone, hd], by simp,
          by simp [terminateSignals, hd], ?_, by simp⟩
        intro _ d' hd' hgt
        injection hd' with he
        omega
      · refine ⟨by simp [terminateDuration], ?_, by simp,
          by simp [terminateSignals, hd], ?_, by simp⟩
        · simp [processGone, terminateSignals, hd]
        · intro _ d' hd' hgt
          simp [terminateSignals, hd]
  · exact ⟨by simp [terminateDuration], by simp [processGone],
      by simp [terminateSignals], by simp, by simp, by simp⟩

/-- Witness for C8: a live process that would take 10 units to exit is
terminated within the grace period and force-killed. -/
theorem terminate_grace_bound_witness :
    terminateDuration ⟨false, some 10⟩ ≤ 3 ∧
      TermSignal.sigkill ∈ terminateSignals ⟨false, some 10⟩ :=
  ⟨(terminate_grace_bound ⟨false, some 10⟩).1,
   (terminate_grace_bound ⟨false, some 10⟩).2.2.2.2.1 rfl 10 rfl (by decide)⟩

/-- C9: the key-consistency invariant — every registry entry stores a
session whose `session_key` equals the key it is filed under — is preserved
by the map effects of get-or-create, replace and remove, is established by
the fresh installs they perform, and holds for the empty registry. -/
theorem registry_key_consistent (m : List (String × SessionM)) (k : String)
    (pid : Nat) (h : KeyConsistent m) :
    KeyConsistent (getOrCreateMap m k pid) ∧
      KeyConsistent (replaceMap m k pid) ∧
      KeyConsistent (regRemove m k) ∧
      KeyConsistent (regInsert m k (mkSession k pid)) ∧
      KeyConsistent ([] : List (String × SessionM)) := by
  have hins : KeyConsistent (regInsert m k (mkSession k pid)) := by
    intro p hp
    rcases List.mem_cons.mp hp with h1 | h2
    · subst h1; rfl
    · exact h p (List.mem_of_mem_filter h2)
  have hrem : KeyConsistent (regRemove m k) := fun p hp =>
    h p (List.mem_of_mem_filter hp)
  refine ⟨?_, hins, hrem, hins, by intro p hp; cases hp⟩
  unfold getOrCreateMap
  cases hl : regLookup m k with
  | none => exact hins
  | some s =>
    cases ha : s.procAlive
    · simpa [ha] using hins
    · simpa [ha] using h

/-- Witness for C9 at a concrete one-entry registry. -/
theorem registry_key_consistent_witness :
    KeyConsistent (getOrCreateMap [("u1", mkSession "u1" 1)] "u2" 2) ∧
      KeyConsistent (replaceMap [("u1", mkSession "u1" 1)] "u2" 2) ∧
      KeyConsistent (regRemove [("u1", mkSession "u1" 1)] "u2") ∧
      KeyConsistent (regInsert [("u1", mkSession "u1" 1)] "u2" (mkSession "u2" 2)) ∧
      KeyConsistent ([] : List (String × SessionM)) :=
  registry_key_consistent [("u1", mkSession "u1" 1)] "u2" 2
    (by unfold KeyConsistent; decide)

/-- In a registry snapshot whose keys are unique (as the keys of
`self._sessions` are), the `last_used` value is determined by the key. -/
theorem keys_nodup_unique {l : List (String × Nat)}
    (h : (l.map Prod.fst).Nodup) {k : String} {a b : Nat}
    (ha : (k, a) ∈ l) (hb : (k, b) ∈ l) : a = b := by
  induction l with
  | nil => cases ha
  | cons p rest ih =>
    rw [List.map_cons] at h
    obtain ⟨hhead, htail⟩ := List.nodup_cons.mp h
    rcases List.mem_cons.mp ha with h1 | h1 <;>
      rcases List.mem_cons.mp hb with h2 | h2
    · exact congrArg Prod.snd (h1.trans h2.symm)
    · exfalso
      rw [← h1] at hhead
      exact hhead (List.mem_map.mpr ⟨(k, b), h2, rfl⟩)
    · exfalso
      rw [← h2] at hhead
      exact hhead (List.mem_map.mpr ⟨(k, a), h1, rfl⟩)
    · exact ih htail h1 h2

/-- C7: in any single reaper tick, a session whose idle time strictly
exceeds the idle timeout has its key collected (and hence its entry popped
and its process terminated within that tick), while a session whose idle
time is within the timeout is never collected and survives the tick. -/
theorem cleanup_evicts_exactly_stale (sessions : List (String × Nat))
    (now idleTimeout : Nat) (k : String) (lu : Nat)
    (hnodup : (sessions.map Prod.fst).Nodup)
    (hmem : (k, lu) ∈ sessions) :
    (idleTimeout < now - lu →
        k ∈ (cleanupTick sessions now idleTimeout).1 ∧
          (k, lu) ∉ (cleanupTick sessions now idleTimeout).2) ∧
      (now - lu ≤ idleTimeout →
        k ∉ (cleanupTick sessions now idleTimeout).1 ∧
          (k, lu) ∈ (cleanupTick sessions now idleTimeout).2) := by
  have hstale_iff :
      k ∈ staleKeys sessions now idleTimeout ↔ idleTimeout < now - lu := by
    constructor
    · intro hin
      obtain ⟨p, hp, hpk⟩ := List.mem_map.mp hin
      obtain ⟨hpmem, hppred⟩ := List.mem_filter.mp hp
      obtain ⟨x, y⟩ := p
      cases hpk
      have hy : y = lu := keys_nodup_unique hnodup hpmem hmem
      subst hy
      exact of_decide_eq_true hppred
    · intro hlt
      exact List.mem_map.mpr
        ⟨(k, lu), List.mem_filter.mpr ⟨hmem, by simpa using hlt⟩, rfl⟩
  simp only [cleanupTick]
  refine ⟨fun hlt => ⟨hstale_iff.mpr hlt, fun hin2 => ?_⟩,
    fun hle => ⟨fun hin => absurd (hstale_iff.mp hin) (by omega), ?_⟩⟩
  · exact of_decide_eq_true (List.mem_filter.mp hin2).2 (hstale_iff.mpr hlt)
  · exact List.mem_filter.mpr
      ⟨hmem, decide_eq_true fun hin => absurd (hstale_iff.mp hin) (by omega)⟩

/-- Witness for C7: at tick 1000 with timeout 900, the session last used at
tick 0 is evicted and the one last used at tick 100 is kept. -/
theorem cleanup_evicts_exactly_stale_witness :
    "old" ∈ (cleanupTick [("old", 0), ("fresh", 100)] 1000 900).1 ∧
      ("fresh", 100) ∈ (cleanupTick [("old", 0), ("fresh", 100)] 1000 900).2 :=
  ⟨((cleanup_evicts_exactly_stale [("old", 0), ("fresh", 100)] 1000 900 "old" 0
        (by decide) (by decide)).1 (by decide)).1,
   ((cleanup_evicts_exactly_stale [("old", 0), ("fresh", 100)] 1000 900 "fresh" 100
        (by decide) (by decide)).2 (by decide)).2⟩

/-- A `select` that reports no readiness returns at `t + d`. -/
theorem selectAt_not_ready {evs : List (Nat × String)} {closeAt : Option Nat}
    {t d : Nat} (h : (selectAt evs closeAt t d).1 = false) :
    (selectAt evs closeAt t d).2 = t + d := by
  cases he : earliestReady evs closeAt with
  | none => simp [selectAt, he]
  | some a =>
    by_cases ha : a ≤ t + d
    · simp [selectAt, he, ha] at h
    · simp [selectAt, he, ha]

/-- Outer loop, deadline reached: return the accumulated chunks. -/
theorem readLoop_outer_at_deadline (closeAt : Option Nat) (fuel : Nat)
    (evs : List (Nat × String)) (t deadline : Nat) (chunks : List String)
    (h : deadline ≤ t) :
    readLoop closeAt (fuel + 1) evs none t deadline chunks = some chunks := by
  simp only [readLoop]
  rw [if_pos h]

/-- Outer loop, nothing ready and nothing collected: keep polling. -/
theorem readLoop_outer_poll_on (closeAt : Option Nat) (fuel : Nat)
    (evs : List (Nat × String)) (t deadline : Nat)
    (hd : ¬ deadline ≤ t)
    (hr : (selectAt evs closeAt t (min 5 (max 1 (deadline - t)))).1 = false) :
    readLoop closeAt (fuel + 1) evs none t deadline [] =
      readLoop closeAt fuel evs none (t + min 5 (max 1 (deadline - t)))
        deadline [] := by
  simp only [readLoop]
  rw [if_neg hd, if_neg (by simp [hr]), if_pos (by rfl), selectAt_not_ready hr]

/-- Outer loop, nothing ready with data collected: the read concludes. -/
theorem readLoop_outer_concludes (closeAt : Option Nat) (fuel : Nat)
    (evs : List (Nat × String)) (t deadline : Nat) (c : String)
    (cs : List String)
    (hd : ¬ deadline ≤ t)
    (hr : (selectAt evs closeAt t (min 5 (max 1 (deadline - t)))).1 = false) :
    readLoop closeAt (fuel + 1) evs none t deadline (c :: cs) =
      some (c :: cs) := by
  simp only [readLoop]
  rw [if_neg hd, if_neg (by simp [hr]), if_neg (by simp)]

/-- Outer loop, ready with a zero-length read: end-of-file concludes. -/
theorem readLoop_outer_eof (closeAt : Option Nat) (fuel : Nat)
    (evs : List (Nat × String)) (t deadline : Nat) (chunks : List String)
    (hd : ¬ deadline ≤ t)
    (hr : (selectAt evs closeAt t (min 5 (max 1 (deadline - t)))).1 = true)
    (hz : (readAt evs (selectAt evs closeAt t (min 5 (max 1 (deadline - t)))).2).1 = "") :
    readLoop closeAt (fuel + 1) evs none t deadline chunks = some chunks := by
  simp only [readLoop]
  rw [if_neg hd, if_pos hr, if_pos hz]

/-- Outer loop, data read: append it and enter the quiet-window sub-loop
with quiet deadline 12 ticks after the read. -/
theorem readLoop_outer_data (closeAt : Option Nat) (fuel : Nat)
    (evs : List (Nat × String)) (t deadline : Nat) (chunks : List String)
    (hd : ¬ deadline ≤ t)
    (hr : (selectAt evs closeAt t (min 5 (max 1 (deadline - t)))).1 = true)
    (hz : (readAt evs (selectAt evs closeAt t (min 5 (max 1 (deadline - t)))).2).1 ≠ "") :
    readLoop closeAt (fuel + 1) evs none t deadline chunks =
      readLoop closeAt fuel
        (readAt evs (selectAt evs closeAt t (min 5 (max 1 (deadline - t)))).2).2
        (some ((selectAt evs closeAt t (min 5 (max 1 (deadline - t)))).2 + 12))
        (selectAt evs closeAt t (min 5 (max 1 (deadline - t)))).2 deadline
        (chunks ++ [(readAt evs (selectAt evs closeAt t (min 5 (max 1 (deadline - t)))).2).1]) := by
  simp only [readLoop]
  rw [if_neg hd, if_pos hr, if_neg hz]

/-- Sub-loop, fixed quiet deadline reached: break back to the outer loop. -/
theorem readLoop_inner_elapsed (closeAt : Option Nat) (fuel : Nat)
    (evs : List (Nat × String)) (qdl t deadline : Nat) (chunks : List String)
    (h : qdl ≤ t) :
    readLoop closeAt (fuel + 1) evs (some qdl) t deadline chunks =
      readLoop closeAt fuel evs none t deadline chunks := by
  simp only [readLoop]
  rw [if_pos h]

/-- Sub-loop, nothing ready within the 0.1 s poll: keep polling. -/
theorem readLoop_inner_poll_on (closeAt : Option Nat) (fuel : Nat)
    (evs : List (Nat × String)) (qdl t deadline : Nat) (chunks : List String)
    (h : ¬ qdl ≤ t) (hr : (selectAt evs closeAt t 2).1 = false) :
    readLoop closeAt (fuel + 1) evs (some qdl) t deadline chunks =
      readLoop closeAt fuel evs (some qdl) (t + 2) deadline chunks := by
  simp only [readLoop]
  rw [if_neg h, if_neg (by simp [hr]), selectAt_not_ready hr]

/-- Sub-loop, zero-length read: break back to the outer loop. -/
theorem readLoop_inner_eof (closeAt : Option Nat) (fuel : Nat)
    (evs : List (Nat × String)) (qdl t deadline : Nat) (chunks : List String)
    (h : ¬ qdl ≤ t) (hr : (selectAt evs closeAt t 2).1 = true)
    (hz : (readAt evs (selectAt evs closeAt t 2).2).1 = "") :
    readLoop closeAt (fuel + 1) evs (some qdl) t deadline chunks =
      readLoop closeAt fuel evs none (selectAt evs closeAt t 2).2 deadline
        chunks := by
  simp only [readLoop]
  rw [if_neg h, if_pos hr, if_pos hz]

/-- Sub-loop, new data: append it and continue with the same fixed quiet
deadline. -/
theorem readLoop_inner_data (closeAt : Option Nat) (fuel : Nat)
    (evs : List (Nat × String)) (qdl t deadline : Nat) (chunks : List String)
    (h : ¬ qdl ≤ t) (hr : (selectAt evs closeAt t 2).1 = true)
    (hz : (readAt evs (selectAt evs closeAt t 2).2).1 ≠ "") :
    readLoop closeAt (fuel + 1) evs (some qdl) t deadline chunks =
      readLoop closeAt fuel (readAt evs (selectAt evs closeAt t 2).2).2
        (some qdl) (selectAt evs closeAt t 2).2 deadline
        (chunks ++ [(readAt evs (selectAt evs closeAt t 2).2).1]) := by
  simp only [readLoop]
  rw [if_neg h, if_pos hr, if_neg hz]

/-- The two complementary filters of `readAt` split the stream. -/
theorem filter_le_lt_length (evs : List (Nat × String)) (t : Nat) :
    (evs.filter (fun e => decide (e.1 ≤ t))).length +
      (evs.filter (fun e => decide (t < e.1))).length = evs.length := by
  induction evs with
  | nil => rfl
  | cons e rest ih =>
    by_cases he : e.1 ≤ t
    · simp only [List.filter_cons, decide_eq_true_eq]
      rw [if_pos he, if_neg (Nat.not_lt.mpr he)]
      simp only [List.length_cons]
      omega
    · simp only [List.filter_cons, decide_eq_true_eq]
      rw [if_neg he, if_pos (Nat.not_le.mp he)]
      simp only [List.length_cons]
      omega

/-- A read that returned data consumed at least one chunk. -/
theorem readAt_consumes {evs : List (Nat × String)} {t : Nat}
    (h : (readAt evs t).1 ≠ "") :
    (readAt evs t).2.length < evs.length := by
  have hne : evs.filter (fun e => decide (e.1 ≤ t)) ≠ [] := by
    intro hnil
    apply h
    simp [readAt, hnil, String.join]
  have hpart := filter_le_lt_length evs t
  have hpos : 0 < (evs.filter (fun e => decide (e.1 ≤ t))).length :=
    List.length_pos.mpr hne
  simp only [readAt]
  omega

/-- The outer loop returns for every state with a non-empty accumulation,
given totality over strictly smaller streams: every branch either returns
at once or consumes at least one chunk and enters the sub-loop. -/
theorem reader_total_outer_nonempty (evs : List (Nat × String))
    (closeAt : Option Nat)
    (hsmall : ∀ evs2 : List (Nat × String), evs2.length < evs.length →
      ReaderTotal evs2 closeAt) :
    ∀ t deadline c cs, ∃ fuel out,
      readLoop closeAt fuel evs none t deadline (c :: cs) = some out := by
  intro t deadline c cs
  by_cases hd : deadline ≤ t
  · exact ⟨1, c :: cs, readLoop_outer_at_deadline closeAt 0 evs t deadline _ hd⟩
  cases hr : (selectAt evs closeAt t (min 5 (max 1 (deadline - t)))).1 with
  | false =>
    exact ⟨1, c :: cs, readLoop_outer_concludes closeAt 0 evs t deadline c cs hd hr⟩
  | true =>
    by_cases hz :
        (readAt evs (selectAt evs closeAt t (min 5 (max 1 (deadline - t)))).2).1 = ""
    · exact ⟨1, c :: cs, readLoop_outer_eof closeAt 0 evs t deadline _ hd hr hz⟩
    · obtain ⟨f, out, hf⟩ :=
        (hsmall _ (readAt_consumes hz)).2
          (selectAt evs closeAt t (min 5 (max 1 (deadline - t)))).2
          ((selectAt evs closeAt t (min 5 (max 1 (deadline - t)))).2 + 12)
          deadline c
          (cs ++ [(readAt evs (selectAt evs closeAt t (min 5 (max 1 (deadline - t)))).2).1])
      refine ⟨f + 1, out, ?_⟩
      rw [readLoop_outer_data closeAt f evs t deadline (c :: cs) hd hr hz]
      exact hf

/-- The quiet-window sub-loop returns for every state with a non-empty
accumulation, given totality over strictly smaller streams: the remaining
time to the fixed quiet deadline shrinks on every poll, and the other
branches consume a chunk or fall back to the outer loop. -/
theorem reader_total_inner (evs : List (Nat × String)) (closeAt : Option Nat)
    (hsmall : ∀ evs2 : List (Nat × String), evs2.length < evs.length →
      ReaderTotal evs2 closeAt) :
    ∀ k t qdl, qdl - t ≤ k → ∀ deadline c cs, ∃ fuel out,
      readLoop closeAt fuel evs (some qdl) t deadline (c :: cs) = some out := by
  intro k
  induction k with
  | zero =>
    intro t qdl hk deadline c cs
    have hq : qdl ≤ t := by omega
    obtain ⟨f, out, hf⟩ :=
      reader_total_outer_nonempty evs closeAt hsmall t deadline c cs
    exact ⟨f + 1, out, by rw [readLoop_inner_elapsed closeAt f evs qdl t deadline _ hq]; exact hf⟩
  | succ k ih =>
    intro t qdl hk deadline c cs
    by_cases hq : qdl ≤ t
    · obtain ⟨f, out, hf⟩ :=
        reader_total_outer_nonempty evs closeAt hsmall t deadline c cs
      exact ⟨f + 1, out, by rw [readLoop_inner_elapsed closeAt f evs qdl t deadline _ hq]; exact hf⟩
    cases hr : (selectAt evs closeAt t 2).1 with
    | false =>
      obtain ⟨f, out, hf⟩ := ih (t + 2) qdl (by omega) deadline c cs
      exact ⟨f + 1, out,
        by rw [readLoop_inner_poll_on closeAt f evs qdl t deadline _ hq hr]; exact hf⟩
    | true =>
      by_cases hz : (readAt evs (selectAt evs closeAt t 2).2).1 = ""
      · obtain ⟨f, out, hf⟩ :=
          reader_total_outer_nonempty evs closeAt hsmall
            (selectAt evs closeAt t 2).2 deadline c cs
        exact ⟨f + 1, out,
          by rw [readLoop_inner_eof closeAt f evs qdl t deadline _ hq hr hz]; exact hf⟩
      · obtain ⟨f, out, hf⟩ :=
          (hsmall _ (readAt_consumes hz)).2 (selectAt evs closeAt t 2).2 qdl
            deadline c (cs ++ [(readAt evs (selectAt evs closeAt t 2).2).1])
        exact ⟨f + 1, out,
          by rw [readLoop_inner_data closeAt f evs qdl t deadline _ hq hr hz]; exact hf⟩

/-- The outer loop returns for every state with an empty accumulation,
given totality over strictly smaller streams: each silent poll strictly
advances the clock towards the overall deadline, and a read hands over to
the sub-loop on a smaller stream. -/
theorem reader_total_outer_nil (evs : List (Nat × String))
    (closeAt : Option Nat)
    (hsmall : ∀ evs2 : List (Nat × String), evs2.length < evs.length →
      ReaderTotal evs2 closeAt) :
    ∀ k t deadline, deadline - t ≤ k → ∃ fuel out,
      readLoop closeAt fuel evs none t deadline [] = some out := by
  intro k
  induction k with
  | zero =>
    intro t deadline hk
    have hd : deadline ≤ t := by omega
    exact ⟨1, [], readLoop_outer_at_deadline closeAt 0 evs t deadline [] hd⟩
  | succ k ih =>
    intro t deadline hk
    by_cases hd : deadline ≤ t
    · exact ⟨1, [], readLoop_outer_at_deadline closeAt 0 evs t deadline [] hd⟩
    cases hr : (selectAt evs closeAt t (min 5 (max 1 (deadline - t)))).1 with
    | false =>
      have hδ : 1 ≤ min 5 (max 1 (deadline - t)) :=
        Nat.le_min.mpr ⟨by omega, Nat.le_max_left 1 _⟩
      obtain ⟨f, out, hf⟩ :=
        ih (t + min 5 (max 1 (deadline - t))) deadline (by omega)
      exact ⟨f + 1, out,
        by rw [readLoop_outer_poll_on closeAt f evs t deadline hd hr]; exact hf⟩
    | true =>
      by_cases hz :
          (readAt evs (selectAt evs closeAt t (min 5 (max 1 (deadline - t)))).2).1 = ""
      · exact ⟨1, [], readLoop_outer_eof closeAt 0 evs t deadline [] hd hr hz⟩
      · obtain ⟨f, out, hf⟩ :=
          (hsmall _ (readAt_consumes hz)).2
            (selectAt evs closeAt t (min 5 (max 1 (deadline - t)))).2
            ((selectAt evs closeAt t (min 5 (max 1 (deadline - t)))).2 + 12)
            deadline
            (readAt evs (selectAt evs closeAt t (min 5 (max 1 (deadline - t)))).2).1 []
        refine ⟨f + 1, out, ?_⟩
        rw [readLoop_outer_data closeAt f evs t deadline [] hd hr hz]
        exact hf

/-- The reader loop terminates on every stream, in both modes: strong
induction on the number of unconsumed chunks, with the time-bounded
sub-inductions provided by the previous three lemmas. -/
theorem reader_total :
    ∀ (n : Nat) (evs : List (Nat × String)), evs.length = n →
      ∀ closeAt : Option Nat, ReaderTotal evs closeAt := by
  intro n
  induction n using Nat.strong_induction_on with
  | _ n ih =>
    intro evs hlen closeAt
    have hsmall : ∀ evs2 : List (Nat × String), evs2.length < evs.length →
        ReaderTotal evs2 closeAt := by
      intro evs2 h2
      exact ih evs2.length (by omega) evs2 rfl closeAt
    constructor
    · intro t deadline chunks
      cases chunks with
      | nil =>
        exact reader_total_outer_nil evs closeAt hsmall (deadline - t) t deadline le_rfl
      | cons c cs =>
        exact reader_total_outer_nonempty evs closeAt hsmall t deadline c cs
    · intro t qdl deadline c cs
      exact reader_total_inner evs closeAt hsmall (qdl - t) t qdl le_rfl deadline c cs

/-- C4: on a stream that emits "AB", is silent for 0.3 time units (6
ticks), then emits "CD" and stays silent, the reader with the default
30-second deadline (600 ticks) returns the single collated response "ABCD"
rather than stopping after the first chunk. -/
theorem reader_collates_chunks :
    readResponse collationStream none 600 0 50 = some "ABCD" := by decide

/-- C5: on every input stream the reader stops — some amount of fuel makes
the loop return a result, and its only possible result is the accumulated
text, never an error — and once the overall deadline has elapsed it returns
exactly the chunks accumulated so far. -/
theorem reader_timeout_returns_accumulated (evs : List (Nat × String))
    (closeAt : Option Nat) (t deadline : Nat) (chunks : List String) :
    (∃ fuel out, readLoop closeAt fuel evs none t deadline chunks = some out) ∧
      (deadline ≤ t → ∀ fuel,
        readLoop closeAt (fuel + 1) evs none t deadline chunks = some chunks) := by
  exact ⟨(reader_total evs.length evs rfl closeAt).1 t deadline chunks,
    fun h fuel => readLoop_outer_at_deadline closeAt fuel evs t deadline chunks h⟩

/-- Witness for C5: past the deadline the reader hands back the chunks
collected so far. -/
theorem reader_timeout_returns_accumulated_witness :
    readLoop none 1 [(0, "A")] none 5 3 ["x"] = some ["x"] :=
  (reader_timeout_returns_accumulated [(0, "A")] none 5 3 ["x"]).2 (by decide) 0

/-- C2 counterexample: on a stream with chunks at ticks 0, 10 and 21 (the
third 0.55 s after the second, inside a 0.6 s quiet window) the code's
sub-loop collects only the first two chunks, while the spec's
restart-the-window semantics collects all three — so arrivals do not
restart the quiet window and the sub-loop does not run until a full quiet
window passes with no new data. -/
theorem quiet_window_restart_cex :
    readLoop none 50 restartGapStream none 0 600 [] = some ["A", "B"] ∧
      readLoopSpecRestart none 50 restartGapStream none 0 600 [] =
        some ["A", "B", "C"] ∧
      readLoop none 50 restartGapStream none 0 600 [] ≠
        readLoopSpecRestart none 50 restartGapStream none 0 600 [] :=
  ⟨by decide, by decide, by decide⟩

/-- C2 amended: in the quiet-window sub-loop every arrival of new data is
appended to the accumulated buffer, but the quiet deadline stays the one
fixed at sub-loop entry — new data does not restart it — and reaching that
fixed deadline (or a zero-length read) exits the sub-loop; consequently, on
the concrete stream whose third chunk arrives within 0.6 time units of the
second but past the fixed deadline, the loop returns only the first two
chunks. -/
theorem quiet_window_fixed_deadline :
    (∀ (closeAt : Option Nat) (fuel : Nat) (evs : List (Nat × String))
        (qdl t deadline : Nat) (chunks : List String),
      ¬ qdl ≤ t → (selectAt evs closeAt t 2).1 = true →
      (readAt evs (selectAt evs closeAt t 2).2).1 ≠ "" →
      readLoop closeAt (fuel + 1) evs (some qdl) t deadline chunks =
        readLoop closeAt fuel (readAt evs (selectAt evs closeAt t 2).2).2
          (some qdl) (selectAt evs closeAt t 2).2 deadline
          (chunks ++ [(readAt evs (selectAt evs closeAt t 2).2).1])) ∧
      (∀ (closeAt : Option Nat) (fuel : Nat) (evs : List (Nat × String))
          (qdl t deadline : Nat) (chunks : List String), qdl ≤ t →
        readLoop closeAt (fuel + 1) evs (some qdl) t deadline chunks =
          readLoop closeAt fuel evs none t deadline chunks) ∧
      readLoop none 50 restartGapStream none 0 600 [] = some ["A", "B"] :=
  ⟨fun closeAt fuel evs qdl t deadline chunks h hr hz =>
      readLoop_inner_data closeAt fuel evs qdl t deadline chunks h hr hz,
    fun closeAt fuel evs qdl t deadline chunks h =>
      readLoop_inner_elapsed closeAt fuel evs qdl t deadline chunks h,
    by decide⟩

/-- Witness for the amended C2: a concrete sub-loop arrival is appended
while the quiet deadline parameter stays 12. -/
theorem quiet_window_fixed_deadline_witness :
    readLoop none 2 [(0, "X")] (some 12) 0 600 ["P"] =
      readLoop none 1 ([] : List (Nat × String)) (some 12) 0 600 ["P", "X"] :=
  quiet_window_fixed_deadline.1 none 1 [(0, "X")] 12 0 600 ["P"]
    (by decide) (by decide) (by decide)
